import Mathlib

/-!
Verification development for `gregory.py`, a single-file web discount
monitor.  The Python source is shallowly embedded: the HTML document that
BeautifulSoup produces is modelled as a tree (`HNode` / `HForest`), the
text-extraction and keyword-detection pipeline of `check_discount` as pure
functions, the cooldown state machine of `GregoryMonitor.run` as a step
function over an explicit `last_sent : Int` state, and the top-level loop
(including its exception handling) as a function over a list of cycle
events.  Times (`time.time()`) are modelled as integers.
-/

/-- Substring containment, the semantics of Python's `kw in text` on
strings: `needle` occurs contiguously somewhere in `hay`. -/
def isSubstr (needle : List Char) : List Char → Bool
  | [] => needle.isEmpty
  | c :: rest => needle.isPrefixOf (c :: rest) || isSubstr needle rest

/-- Python `str.strip()`: remove leading and trailing whitespace. -/
def stripChars (s : List Char) : List Char :=
  ((s.dropWhile Char.isWhitespace).reverse.dropWhile Char.isWhitespace).reverse

/-- Python `str.lower()` on a character list. -/
def lowerChars (s : List Char) : List Char :=
  s.map Char.toLower

mutual
/-- A node of the parsed HTML document (BeautifulSoup tree): either a text
leaf or an element with a tag name and children. -/
inductive HNode : Type where
  | text : String → HNode
  | elem : String → HForest → HNode

/-- A list of sibling HTML nodes (children of an element, or the whole
document). -/
inductive HForest : Type where
  | nil : HForest
  | cons : HNode → HForest → HForest
end

/-- Concatenation of sibling lists. -/
def HForest.append : HForest → HForest → HForest
  | .nil, g => g
  | .cons n f, g => .cons n (f.append g)

/-- The tags removed before text extraction, from
`soup(["script", "style", "noscript"])` in `check_discount`. -/
def noiseTags : List String := ["script", "style", "noscript"]

mutual
/-- Model of `element.decompose()` applied to every script/style/noscript element:
a node maps to the empty forest if its tag is one of the removed tags,
otherwise to itself with its children recursively cleaned. -/
def stripNode : HNode → HForest
  | .text s => .cons (.text s) .nil
  | .elem tag cs =>
      if tag ∈ noiseTags then .nil else .cons (.elem tag (stripForest cs)) .nil

/-- The decompose step lifted to a forest of siblings. -/
def stripForest : HForest → HForest
  | .nil => .nil
  | .cons n f => (stripNode n).append (stripForest f)
end

mutual
/-- The text leaves of a node, in document order (the strings BeautifulSoup
would collect for `get_text`). -/
def nodeTexts : HNode → List String
  | .text s => [s]
  | .elem _ cs => forestTexts cs

/-- Text leaves of a forest, in document order. -/
def forestTexts : HForest → List String
  | .nil => []
  | .cons n f => nodeTexts n ++ forestTexts f
end

/-- Model of `soup.get_text(separator=' ', strip=True)`: each text fragment is
stripped, empty fragments are dropped, and the rest are joined with a
single space. -/
def getText (doc : HForest) : List Char :=
  List.intercalate [' ']
    (((forestTexts doc).map (fun s => stripChars s.toList)).filter
      (fun p => !p.isEmpty))

/-- The normalized page text used for detection:
`soup.get_text(separator=' ', strip=True).lower()` computed on the
document after script/style/noscript removal. -/
def pageText (doc : HForest) : List Char :=
  lowerChars (getText (stripForest doc))

/-- The keyword set from `GregoryMonitor.__init__` (a Python set literal;
iteration order is immaterial to every property proved here). -/
def keywords : List String :=
  ["sale", "discount", "off", "promo", "coupon", "clearance",
   "% off", "special offer"]

/-- Line 99: `found_keywords = [kw for kw in self.keywords if kw in text]`. -/
def found_keywords (doc : HForest) : List String :=
  keywords.filter (fun kw => isSubstr kw.toList (pageText doc))

/-- The possible outcomes of the fetch/parse phase of `check_discount`
(lines 82-96): a successfully fetched and parsed document, a
`requests.RequestException` (network error, timeout, or the non-2xx raise
from `raise_for_status`), or any other exception during the check. -/
inductive FetchOutcome : Type where
  | ok : HForest → FetchOutcome
  | requestError : FetchOutcome
  | genericError : FetchOutcome

/-- Model of `GregoryMonitor.check_discount`: on a fetched document, true iff
`found_keywords` is non-empty; both `except` branches (network error and
any other exception) log and return `False`. -/
def check_discount (f : FetchOutcome) : Bool :=
  match f with
  | .ok doc => !(found_keywords doc).isEmpty
  | .requestError => false
  | .genericError => false

/-- Line 63: `self.cooldown = 86400` (24-hour cooldown). -/
def cooldown : Int := 86400

/-- Line 62: `self.last_sent = 0`, the initial cooldown state. -/
def initial_last_sent : Int := 0

/-- The inputs one iteration of `GregoryMonitor.run` consumes from the
outside world: the fetch/parse outcome, the value of `time.time()`, and
whether `send_email` would report success if invoked this cycle. -/
structure CycleInput : Type where
  fetch : FetchOutcome
  now : Int
  sendOk : Bool

/-- What one iteration produced: the new `self.last_sent`, whether
`send_email` was invoked (`attempted`), and whether it was invoked and
reported success (`delivered`). -/
structure CycleOutcome : Type where
  last_sent : Int
  attempted : Bool
  delivered : Bool
deriving DecidableEq

/-- One iteration of the body of `GregoryMonitor.run` (lines 155-163):
if `check_discount()` and `current_time - last_sent > cooldown` then
`send_email()` is invoked and `last_sent` is updated exactly when it
returns success; otherwise the state is unchanged. -/
def runCycle (last_sent : Int) (c : CycleInput) : CycleOutcome :=
  if check_discount c.fetch then
    if c.now - last_sent > cooldown then
      if c.sendOk then ⟨c.now, true, true⟩ else ⟨last_sent, true, false⟩
    else ⟨last_sent, false, false⟩
  else ⟨last_sent, false, false⟩

/-- The value of `self.last_sent` after running a sequence of cycles. -/
def finalLastSent (s : Int) : List CycleInput → Int
  | [] => s
  | c :: cs => finalLastSent (runCycle s c).last_sent cs

/-- The timestamps (`current_time` values) of the successful notification
sends during a sequence of cycles, in order. -/
def deliveredTimes (s : Int) : List CycleInput → List Int
  | [] => []
  | c :: cs =>
      (if (runCycle s c).delivered then [c.now] else []) ++
        deliveredTimes (runCycle s c).last_sent cs

/-- How many notification emails were (successfully) sent during a
sequence of cycles. -/
def notifCount (s : Int) (cs : List CycleInput) : Nat :=
  (deliveredTimes s cs).length

/-- One trip around the `while True` loop, as seen from outside: a normal
pass over the body (which may or may not notify), an exception escaping
the body that is not a `KeyboardInterrupt`, or a `KeyboardInterrupt`. -/
inductive CycleEvent : Type where
  | normal : CycleInput → CycleEvent
  | fault : CycleEvent
  | interrupt : CycleEvent

/-- The externally visible action the loop took for one event. -/
inductive LoopAction : Type where
  | cycled : Int → LoopAction      -- body ran, then `time.sleep(check_interval)`
  | recovered : Int → LoopAction   -- exception logged, then `time.sleep(300)`
  | shutdown : LoopAction          -- `KeyboardInterrupt` logged, `break`
deriving DecidableEq

/-- The `while True` loop of `GregoryMonitor.run` (lines 153-172) over a
stream of events: a normal iteration runs the body and sleeps
`check_interval`; a non-interrupt exception is caught, logged and followed
by a 300-second sleep before the loop resumes; `KeyboardInterrupt` logs
the shutdown message and breaks.  The result is the trace of actions
taken (events after a shutdown are never processed). -/
def runLoop (interval : Int) (s : Int) : List CycleEvent → List LoopAction
  | [] => []
  | .normal c :: es => .cycled interval :: runLoop interval (runCycle s c).last_sent es
  | .fault :: es => .recovered 300 :: runLoop interval s es
  | .interrupt :: _ => [.shutdown]

/-- True iff some event in the list is a `KeyboardInterrupt`. -/
def hasInterrupt : List CycleEvent → Bool
  | [] => false
  | .interrupt :: _ => true
  | _ :: es => hasInterrupt es

/-- The `Config` dataclass (lines 15-26), in field declaration order. -/
structure Config : Type where
  website_url : String
  check_interval : Int
  smtp_server : String
  smtp_port : Int
  email_user : String
  email_password : String
  sender : String
  receiver : String
  user_agent : String
deriving DecidableEq

/-- Python truthiness test `not value` for the string fields of `Config`:
a string is falsy exactly when it is empty. -/
def falsyStr (s : String) : Bool := s = ""

/-- Python truthiness test `not value` for the integer fields of `Config`:
an integer is falsy exactly when it is zero. -/
def falsyInt (n : Int) : Bool := n = 0

/-- Model of `self.__dict__.items()` for a `Config` instance: each field name
paired with whether its value is falsy, in field declaration order. -/
def configFields (c : Config) : List (String × Bool) :=
  [("website_url", falsyStr c.website_url),
   ("check_interval", falsyInt c.check_interval),
   ("smtp_server", falsyStr c.smtp_server),
   ("smtp_port", falsyInt c.smtp_port),
   ("email_user", falsyStr c.email_user),
   ("email_password", falsyStr c.email_password),
   ("sender", falsyStr c.sender),
   ("receiver", falsyStr c.receiver),
   ("user_agent", falsyStr c.user_agent)]

/-- The message appended for a falsy field (line 49). -/
def fieldError (name : String) : String := "配置项 " ++ name ++ " 不能为空"

/-- The accumulation loop of `Config.validate` over the field list. -/
def collectErrors : List (String × Bool) → List String
  | [] => []
  | (name, bad) :: rest =>
      (if bad then [fieldError name] else []) ++ collectErrors rest

/-- Model of `Config.validate` (lines 44-50): one error message per falsy field, in
field order. -/
def Config.validate (c : Config) : List String :=
  collectErrors (configFields c)

/-- What `main` (lines 174-185) does after building the config: if
`validate` returns a non-empty list it prints every message and returns
(the loop is never started, the process exits cleanly with code 0);
otherwise it constructs the monitor and enters the loop. -/
inductive MainResult : Type where
  | refused : List String → MainResult   -- messages printed; loop never started
  | started : MainResult                 -- monitor.run() entered
deriving DecidableEq

/-- The branching of `main` on the validation result. -/
def mainOutcome (c : Config) : MainResult :=
  match c.validate with
  | [] => .started
  | e :: es => .refused (e :: es)

/-- Concrete documents used in closed statements below. -/
def docSale : HForest := .cons (.text "sale") .nil

/-- A document whose only matching keyword is `promo`. -/
def docPromo : HForest := .cons (.text "promo") .nil

/-- The spec's scenario document `<script>sale</script><p>Welcome</p>`. -/
def scenarioDoc : HForest :=
  .cons (.elem "script" (.cons (.text "sale") .nil))
    (.cons (.elem "p" (.cons (.text "Welcome") .nil)) .nil)

/-- A page whose visible text contains `off` only inside the word
`offer`. -/
def docOffer : HForest :=
  .cons (.elem "p" (.cons (.text "Best offer today") .nil)) .nil

/-- A page whose visible text contains `off` only inside the word
`office`. -/
def docOffice : HForest := .cons (.text "Welcome to our office") .nil

/-- A page whose visible text contains `off` only inside the word
`coffee`. -/
def docCoffee : HForest := .cons (.text "Fresh coffee brewed daily") .nil

/-- The log line emitted on line 102 when keywords are found, `none` when
the cycle logs no discovery. -/
def discountLog (doc : HForest) : Option String :=
  if found_keywords doc = [] then none
  else some ("发现折扣关键词：" ++ String.intercalate ", " (found_keywords doc))

-- ### Helper lemmas (shared) ###

theorem runCycle_noMatch (s : Int) (c : CycleInput)
    (h : check_discount c.fetch = false) : runCycle s c = ⟨s, false, false⟩ := by
  simp [runCycle, h]

theorem runCycle_delivered_iff (s : Int) (c : CycleInput) :
    (runCycle s c).delivered = true ↔
      check_discount c.fetch = true ∧ cooldown < c.now - s ∧ c.sendOk = true := by
  unfold runCycle; split_ifs with h1 h2 h3 <;> simp_all

theorem runCycle_attempted_iff (s : Int) (c : CycleInput) :
    (runCycle s c).attempted = true ↔
      check_discount c.fetch = true ∧ cooldown < c.now - s := by
  unfold runCycle; split_ifs with h1 h2 h3 <;> simp_all

theorem runCycle_last_sent_of_delivered (s : Int) (c : CycleInput)
    (h : (runCycle s c).delivered = true) : (runCycle s c).last_sent = c.now := by
  unfold runCycle at *
  split_ifs at *
  simp_all

theorem runCycle_last_sent_of_not_delivered (s : Int) (c : CycleInput)
    (h : (runCycle s c).delivered = false) : (runCycle s c).last_sent = s := by
  unfold runCycle at *; split_ifs at * <;> simp_all

theorem deliveredTimes_append (xs : List CycleInput) :
    ∀ (s : Int) (ys : List CycleInput),
      deliveredTimes s (xs ++ ys) =
        deliveredTimes s xs ++ deliveredTimes (finalLastSent s xs) ys := by
  induction xs with
  | nil => intro s ys; simp [deliveredTimes, finalLastSent]
  | cons x xs ih =>
      intro s ys
      simp [deliveredTimes, finalLastSent, ih, List.append_assoc]

theorem deliveredTimes_noMatch (xs : List CycleInput) :
    ∀ s : Int, (∀ c ∈ xs, check_discount c.fetch = false) →
      deliveredTimes s xs = [] ∧ finalLastSent s xs = s := by
  induction xs with
  | nil => intro s _; exact ⟨rfl, rfl⟩
  | cons x xs ih =>
      intro s h
      have hx : check_discount x.fetch = false := h x (by simp)
      have hrest : ∀ c ∈ xs, check_discount c.fetch = false :=
        fun c hc => h c (by simp [hc])
      have := ih s hrest
      simp [deliveredTimes, finalLastSent, runCycle_noMatch s x hx, this.1, this.2]

theorem deliveredTimes_head_bound (cs : List CycleInput) :
    ∀ (s t : Int), (deliveredTimes s cs).head? = some t → cooldown < t - s := by
  induction cs with
  | nil => intro s t h; simp [deliveredTimes] at h
  | cons c cs ih =>
      intro s t h
      by_cases hd : (runCycle s c).delivered = true
      · rw [deliveredTimes] at h
        simp [hd] at h
        rcases h with ⟨ht, _⟩
        have := (runCycle_delivered_iff s c).mp hd
        omega
      · rw [Bool.not_eq_true] at hd
        rw [deliveredTimes] at h
        simp [hd, runCycle_last_sent_of_not_delivered s c hd] at h
        exact ih s t h

theorem deliveredTimes_chain (cs : List CycleInput) :
    ∀ s : Int, List.Chain' (fun a b => cooldown < b - a) (deliveredTimes s cs) := by
  induction cs with
  | nil => intro s; simp [deliveredTimes]
  | cons c cs ih =>
      intro s
      by_cases hd : (runCycle s c).delivered = true
      · rw [deliveredTimes]
        simp [hd, runCycle_last_sent_of_delivered s c hd]
        rw [List.chain'_cons']
        refine ⟨fun y hy => ?_, ih c.now⟩
        exact deliveredTimes_head_bound cs c.now y (Option.mem_def.mp hy)
      · rw [Bool.not_eq_true] at hd
        rw [deliveredTimes]
        simp [hd, runCycle_last_sent_of_not_delivered s c hd]
        exact ih s

theorem collectErrors_eq (l : List (String × Bool)) :
    collectErrors l = (l.filter (fun p => p.2)).map (fun p => fieldError p.1) := by
  induction l with
  | nil => rfl
  | cons p l ih =>
      rcases p with ⟨name, bad⟩
      cases bad <;> simp [collectErrors, List.filter, ih]

theorem validate_eq_nil_iff (c : Config) :
    c.validate = [] ↔
      (c.website_url ≠ "" ∧ c.check_interval ≠ 0 ∧ c.smtp_server ≠ "" ∧
       c.smtp_port ≠ 0 ∧ c.email_user ≠ "" ∧ c.email_password ≠ "" ∧
       c.sender ≠ "" ∧ c.receiver ≠ "" ∧ c.user_agent ≠ "") := by
  simp [Config.validate, configFields, collectErrors, fieldError, falsyStr,
    falsyInt, List.append_eq_nil, ite_eq_right_iff]

theorem mainOutcome_started_iff (c : Config) :
    mainOutcome c = .started ↔ c.validate = [] := by
  unfold mainOutcome
  cases c.validate with
  | nil => simp
  | cons e es => simp

theorem mainOutcome_refused (c : Config) (h : c.validate ≠ []) :
    mainOutcome c = .refused c.validate := by
  unfold mainOutcome
  cases hv : c.validate with
  | nil => exact absurd hv h
  | cons e es => rfl

/-- A matching cycle at time 100000 whose send would succeed. -/
def cwMatchA : CycleInput := ⟨.ok docSale, 100000, true⟩

/-- A matching cycle 50000 seconds after `cwMatchA` (inside the cooldown
window). -/
def cwMatchB : CycleInput := ⟨.ok docSale, 150000, true⟩

/-- A matching cycle 100000 seconds after `cwMatchA` (outside the cooldown
window). -/
def cwMatchC : CycleInput := ⟨.ok docSale, 200000, true⟩

/-- A matching cycle whose notification send fails. -/
def cwFail : CycleInput := ⟨.ok docSale, 100000, false⟩

/-- A matching cycle shortly after `cwFail`. -/
def cwRetry : CycleInput := ⟨.ok docSale, 100100, true⟩

/-- A cycle whose fetch raised a network error. -/
def cwErr : CycleInput := ⟨.requestError, 100000, true⟩

/-- A page where the keyword appears upper-cased in visible text. -/
def docUpperSale : HForest := .cons (.text "Big SALE now") .nil

/-- A short event stream with a loop-level fault and a normal cycle, and
no operator interrupt. -/
def demoEvents : List CycleEvent := [.fault, .normal cwMatchA]

/-- A fully populated configuration. -/
def cfgGood : Config :=
  ⟨"http://example.com", 1800, "smtp.example.com", 587, "user", "pw",
   "a@example.com", "b@example.com", "UA"⟩

/-- A configuration whose `smtp_server` is empty. -/
def cfgBad : Config :=
  ⟨"http://example.com", 1800, "", 587, "user", "pw",
   "a@example.com", "b@example.com", "UA"⟩

/-- A configuration whose string fields are all non-empty but whose
`check_interval` is zero. -/
def cfgZeroInterval : Config :=
  ⟨"http://example.com", 0, "smtp.example.com", 587, "user", "pw",
   "a@example.com", "b@example.com", "UA"⟩

-- ### Claim theorems ###

/-- C1: Cooldown invariant.  For a run of the monitor loop whose first
match occurs at wall-clock time past the 86400-second window (the code
initializes `last_sent = 0`, claim C4), if two matching cycles occur less
than the cooldown window apart exactly one notification is sent, and if
they occur more than the window apart two are sent; moreover in any run
from any state, consecutive successful notifications are always more than
the cooldown window apart, so notifications happen at most once per
window no matter how many cycles match inside it. -/
theorem cooldown_invariant :
    (∀ (pre mid post : List CycleInput) (c1 c2 : CycleInput),
      (∀ c ∈ pre, check_discount c.fetch = false) →
      (∀ c ∈ mid, check_discount c.fetch = false) →
      (∀ c ∈ post, check_discount c.fetch = false) →
      check_discount c1.fetch = true → check_discount c2.fetch = true →
      c1.sendOk = true → c2.sendOk = true →
      cooldown < c1.now →
      (c2.now - c1.now < cooldown →
        notifCount initial_last_sent (pre ++ c1 :: (mid ++ c2 :: post)) = 1) ∧
      (cooldown < c2.now - c1.now →
        notifCount initial_last_sent (pre ++ c1 :: (mid ++ c2 :: post)) = 2)) ∧
    (∀ (s : Int) (cs : List CycleInput),
      List.Chain' (fun a b => cooldown < b - a) (deliveredTimes s cs)) := by
  refine ⟨?_, fun s cs => deliveredTimes_chain cs s⟩
  intro pre mid post c1 c2 hpre hmid hpost hc1 hc2 hs1 hs2 ht1
  have hpre' := deliveredTimes_noMatch pre initial_last_sent hpre
  have key : deliveredTimes initial_last_sent (pre ++ c1 :: (mid ++ c2 :: post)) =
      deliveredTimes initial_last_sent (c1 :: (mid ++ c2 :: post)) := by
    rw [deliveredTimes_append, hpre'.1, hpre'.2]
    simp
  have hd1 : (runCycle initial_last_sent c1).delivered = true := by
    rw [runCycle_delivered_iff]
    exact ⟨hc1, by simpa [initial_last_sent] using ht1, hs1⟩
  have hls1 : (runCycle initial_last_sent c1).last_sent = c1.now :=
    runCycle_last_sent_of_delivered _ _ hd1
  have hmid' := deliveredTimes_noMatch mid c1.now hmid
  have step1 : deliveredTimes initial_last_sent (c1 :: (mid ++ c2 :: post)) =
      c1.now :: deliveredTimes c1.now (c2 :: post) := by
    rw [deliveredTimes, hls1, deliveredTimes_append, hmid'.1, hmid'.2]
    simp [hd1]
  constructor
  · intro hlt
    have hd2 : (runCycle c1.now c2).delivered = false := by
      cases hdel : (runCycle c1.now c2).delivered
      · rfl
      · exact absurd ((runCycle_delivered_iff c1.now c2).mp hdel).2.1 (lt_asymm hlt)
    have hls2 : (runCycle c1.now c2).last_sent = c1.now :=
      runCycle_last_sent_of_not_delivered _ _ hd2
    have hpost' := deliveredTimes_noMatch post c1.now hpost
    unfold notifCount
    rw [key, step1, deliveredTimes, hls2, hpost'.1]
    simp [hd2]
  · intro hgt
    have hd2 : (runCycle c1.now c2).delivered = true := by
      rw [runCycle_delivered_iff]
      exact ⟨hc2, hgt, hs2⟩
    have hls2 : (runCycle c1.now c2).last_sent = c2.now :=
      runCycle_last_sent_of_delivered _ _ hd2
    have hpost' := deliveredTimes_noMatch post c2.now hpost
    unfold notifCount
    rw [key, step1, deliveredTimes, hls2, hpost'.1]
    simp [hd2]

/-- Witness for C1: with the first match at time 100000, a second match
50000 seconds later yields one notification in total, and a second match
100000 seconds later yields two. -/
theorem cooldown_invariant_witness :
    notifCount initial_last_sent [cwMatchA, cwMatchB] = 1 ∧
    notifCount initial_last_sent [cwMatchA, cwMatchC] = 2 :=
  ⟨(cooldown_invariant.1 [] [] [] cwMatchA cwMatchB (by simp) (by simp) (by simp)
      (by decide) (by decide) rfl rfl (by decide)).1 (by decide),
   (cooldown_invariant.1 [] [] [] cwMatchA cwMatchC (by simp) (by simp) (by simp)
      (by decide) (by decide) rfl rfl (by decide)).2 (by decide)⟩

/-- C2: Detection correctness.  A keyword of the configured set contained
in the normalized visible page text is reported as matched; a reported
keyword really is contained in that text; script/style/noscript subtrees
contribute nothing to the text used for detection; and on the spec's
scenario document `<script>sale</script><p>Welcome</p>` no keyword is
reported. -/
theorem detection_correctness :
    (∀ (doc : HForest) (kw : String), kw ∈ keywords →
      isSubstr kw.toList (pageText doc) = true → kw ∈ found_keywords doc) ∧
    (∀ (doc : HForest) (kw : String), kw ∈ found_keywords doc →
      kw ∈ keywords ∧ isSubstr kw.toList (pageText doc) = true) ∧
    (∀ (tag : String) (cs rest : HForest), tag ∈ noiseTags →
      pageText (.cons (.elem tag cs) rest) = pageText rest) ∧
    found_keywords scenarioDoc = [] := by
  refine ⟨?_, ?_, ?_, by decide⟩
  · intro doc kw hk hsub
    exact List.mem_filter.mpr ⟨hk, hsub⟩
  · intro doc kw h
    exact List.mem_filter.mp h
  · intro tag cs rest h
    have hstrip : stripForest (.cons (.elem tag cs) rest) = stripForest rest := by
      simp only [stripForest, stripNode]
      rw [if_pos h]
      rfl
    unfold pageText
    rw [hstrip]

/-- Witness for C2: the upper-cased keyword in `docUpperSale` is reported
(case-insensitivity), and a script element contributes no detection
text. -/
theorem detection_correctness_witness :
    "sale" ∈ found_keywords docUpperSale ∧
    pageText (.cons (.elem "script" (.cons (.text "sale") .nil)) .nil) =
      pageText .nil :=
  ⟨detection_correctness.1 docUpperSale "sale" (by decide) (by decide),
   detection_correctness.2.2.1 "script" (.cons (.text "sale") .nil) .nil
     (by decide)⟩

/-- C3: Atomicity on notify failure.  When a match is detected past the
cooldown and the send fails, `last_sent` is unchanged while the send was
attempted; `last_sent` changes only on a successful send, and then to the
current cycle's time; and a later matching cycle past the cooldown
attempts notification again. -/
theorem notify_failure_atomicity :
    (∀ (s : Int) (c : CycleInput),
      check_discount c.fetch = true → cooldown < c.now - s → c.sendOk = false →
      (runCycle s c).attempted = true ∧ (runCycle s c).last_sent = s) ∧
    (∀ (s : Int) (c : CycleInput),
      (runCycle s c).last_sent ≠ s →
      (runCycle s c).delivered = true ∧ (runCycle s c).last_sent = c.now) ∧
    (∀ (s : Int) (c c' : CycleInput),
      check_discount c.fetch = true → cooldown < c.now - s → c.sendOk = false →
      check_discount c'.fetch = true → cooldown < c'.now - s →
      (runCycle (runCycle s c).last_sent c').attempted = true) := by
  refine ⟨?_, ?_, ?_⟩
  · intro s c h1 h2 h3
    constructor <;> simp [runCycle, h1, h2, h3]
  · intro s c h
    unfold runCycle at *
    split_ifs at * <;> simp_all
  · intro s c c' h1 h2 h3 h4 h5
    have hls : (runCycle s c).last_sent = s := by simp [runCycle, h1, h2, h3]
    rw [hls, runCycle_attempted_iff]
    exact ⟨h4, h5⟩

/-- Witness for C3: a failed send at time 100000 leaves `last_sent` at 0,
and a matching cycle at time 100100 attempts notification again. -/
theorem notify_failure_atomicity_witness :
    (runCycle 0 cwFail).last_sent = 0 ∧
    (runCycle (runCycle 0 cwFail).last_sent cwRetry).attempted = true :=
  ⟨(notify_failure_atomicity.1 0 cwFail (by decide) (by decide) rfl).2,
   notify_failure_atomicity.2.2 0 cwFail cwRetry (by decide) (by decide) rfl
     (by decide) (by decide)⟩

/-- C4: First-match notification.  In the initial state `last_sent = 0`,
a matching cycle invokes the notifier exactly when the current wall-clock
time exceeds 86400 seconds since the epoch. -/
theorem first_match_notification (c : CycleInput)
    (h : check_discount c.fetch = true) :
    (runCycle initial_last_sent c).attempted = true ↔ cooldown < c.now := by
  rw [runCycle_attempted_iff]
  simp [initial_last_sent, h]

/-- Witness for C4: a matching cycle at time 100000 (past the window)
attempts notification from the initial state. -/
theorem first_match_notification_witness :
    (runCycle initial_last_sent cwMatchA).attempted = true :=
  (first_match_notification cwMatchA (by decide)).mpr (by decide)

/-- C5: Per-cycle fault absorption.  A network error or any other
exception in the fetch/parse stage makes `check_discount` report no
match; such a cycle changes no state and sends nothing, and the loop
sleeps the configured interval and processes the remaining cycles
unchanged. -/
theorem fault_absorbed_per_cycle :
    check_discount .requestError = false ∧
    check_discount .genericError = false ∧
    (∀ (s : Int) (c : CycleInput), check_discount c.fetch = false →
      runCycle s c = ⟨s, false, false⟩ ∧
      (∀ rest, deliveredTimes s (c :: rest) = deliveredTimes s rest) ∧
      (∀ (interval : Int) (es : List CycleEvent),
        runLoop interval s (.normal c :: es) =
          .cycled interval :: runLoop interval s es)) := by
  refine ⟨rfl, rfl, ?_⟩
  intro s c h
  have hrc := runCycle_noMatch s c h
  refine ⟨hrc, fun rest => ?_, fun interval es => ?_⟩
  · rw [deliveredTimes, hrc]
    simp
  · rw [runLoop, hrc]

/-- Witness for C5: a cycle whose fetch raised a network error leaves the
state unchanged and delivers nothing. -/
theorem fault_absorbed_per_cycle_witness :
    runCycle 0 cwErr = ⟨0, false, false⟩ ∧
    deliveredTimes 0 [cwErr] = deliveredTimes 0 [] :=
  ⟨(fault_absorbed_per_cycle.2.2 0 cwErr rfl).1,
   (fault_absorbed_per_cycle.2.2 0 cwErr rfl).2.1 []⟩

/-- C6: Startup validation.  Validation returns no errors exactly when
every field is non-falsy; a non-empty error list makes `main` print the
messages and return without starting the loop; an empty one starts the
loop; and the error list has exactly one message naming each falsy field,
in field order. -/
theorem startup_validation (c : Config) :
    (c.validate = [] ↔
      (c.website_url ≠ "" ∧ c.check_interval ≠ 0 ∧ c.smtp_server ≠ "" ∧
       c.smtp_port ≠ 0 ∧ c.email_user ≠ "" ∧ c.email_password ≠ "" ∧
       c.sender ≠ "" ∧ c.receiver ≠ "" ∧ c.user_agent ≠ "")) ∧
    (c.validate ≠ [] → mainOutcome c = .refused c.validate) ∧
    (c.validate = [] → mainOutcome c = .started) ∧
    c.validate =
      ((configFields c).filter (fun p => p.2)).map (fun p => fieldError p.1) := by
  refine ⟨validate_eq_nil_iff c, mainOutcome_refused c, ?_, collectErrors_eq _⟩
  intro h
  exact (mainOutcome_started_iff c).mpr h

/-- Witness for C6: the fully populated configuration starts the loop;
the configuration with an empty `smtp_server` is refused with exactly the
message naming that field. -/
theorem startup_validation_witness :
    mainOutcome cfgGood = .started ∧
    mainOutcome cfgBad = .refused cfgBad.validate ∧
    cfgBad.validate = [fieldError "smtp_server"] :=
  ⟨(startup_validation cfgGood).2.2.1 (by decide),
   (startup_validation cfgBad).2.1 (by decide),
   by decide⟩

/-- C7 is refuted as stated: the detection operation `check_discount`
returns only a boolean.  Two documents with different (non-empty) matched
keyword sets produce the identical return value `true`, so the returned
value is not the set of matched keywords. -/
theorem detector_returns_set_counterexample :
    check_discount (.ok docSale) = check_discount (.ok docPromo) ∧
    found_keywords docSale ≠ found_keywords docPromo ∧
    found_keywords docSale ≠ [] ∧ found_keywords docPromo ≠ [] := by
  decide

/-- C7 (amended): the detection step computes the full list of matched
keywords and reports it in the log line, but `check_discount` itself
returns only a boolean, true exactly when that list is non-empty. -/
theorem detector_computes_keyword_list (doc : HForest) :
    (check_discount (.ok doc) = true ↔ found_keywords doc ≠ []) ∧
    (∀ kw : String, kw ∈ found_keywords doc ↔
      kw ∈ keywords ∧ isSubstr kw.toList (pageText doc) = true) ∧
    (found_keywords doc ≠ [] →
      discountLog doc =
        some ("发现折扣关键词：" ++
          String.intercalate ", " (found_keywords doc))) := by
  refine ⟨?_, fun kw => List.mem_filter, fun h => ?_⟩
  · simp [check_discount]
  · simp [discountLog, h]

/-- Witness for C7 (amended): on `docSale` the matched-keyword list is
non-empty and the log line names it. -/
theorem detector_computes_keyword_list_witness :
    discountLog docSale =
      some ("发现折扣关键词：" ++ String.intercalate ", " ["sale"]) := by
  have h1 : found_keywords docSale = ["sale"] := by decide
  have h2 := (detector_computes_keyword_list docSale).2.2 (by simp [h1])
  rw [h1] at h2
  exact h2

/-- C8: Loop liveness under faults.  A stream of events without an
operator interrupt is processed in full and never reaches the shutdown
action; a non-interrupt fault is handled by a 300-second recovery sleep
after which the loop resumes on the remaining events; an interrupt ends
the loop immediately with the shutdown action and nothing after it is
processed. -/
theorem loop_liveness :
    (∀ (interval s : Int) (es : List CycleEvent), hasInterrupt es = false →
      (runLoop interval s es).length = es.length ∧
      LoopAction.shutdown ∉ runLoop interval s es) ∧
    (∀ (interval s : Int) (es : List CycleEvent),
      runLoop interval s (.fault :: es) =
        .recovered 300 :: runLoop interval s es) ∧
    (∀ (interval s : Int) (es : List CycleEvent),
      runLoop interval s (.interrupt :: es) = [.shutdown]) := by
  refine ⟨?_, fun interval s es => rfl, fun interval s es => rfl⟩
  intro interval s es
  induction es generalizing s with
  | nil => intro _; exact ⟨rfl, by simp [runLoop]⟩
  | cons e es ih =>
      intro h
      cases e with
      | normal c =>
          have h' : hasInterrupt es = false := by simpa [hasInterrupt] using h
          have := ih (runCycle s c).last_sent h'
          constructor <;> simp [runLoop, this.1, this.2]
      | fault =>
          have h' : hasInterrupt es = false := by simpa [hasInterrupt] using h
          have := ih s h'
          constructor <;> simp [runLoop, this.1, this.2]
      | interrupt => simp [hasInterrupt] at h

/-- Witness for C8: a fault followed by a normal cycle is processed in
full without shutting down. -/
theorem loop_liveness_witness :
    (runLoop 60 0 demoEvents).length = demoEvents.length ∧
    LoopAction.shutdown ∉ runLoop 60 0 demoEvents :=
  loop_liveness.1 60 0 demoEvents rfl

/-- C9: Falsy integer fields fail validation.  A configuration with
`check_interval = 0` or `smtp_port = 0` yields validation errors and the
process refuses to start, regardless of the other fields. -/
theorem falsy_int_fields_block_startup (c : Config)
    (h : c.check_interval = 0 ∨ c.smtp_port = 0) :
    c.validate ≠ [] ∧ mainOutcome c ≠ .started := by
  have hv : c.validate ≠ [] := by
    intro he
    rcases (validate_eq_nil_iff c).mp he with ⟨_, h2, _, h4, _⟩
    rcases h with h | h
    · exact h2 h
    · exact h4 h
  exact ⟨hv, fun hs => hv ((mainOutcome_started_iff c).mp hs)⟩

/-- Witness for C9: the configuration with every string field populated
but `check_interval = 0` is refused. -/
theorem falsy_int_fields_block_startup_witness :
    cfgZeroInterval.validate ≠ [] ∧ mainOutcome cfgZeroInterval ≠ .started :=
  falsy_int_fields_block_startup cfgZeroInterval (Or.inl rfl)

/-- C10: Substring matching without word boundaries.  The bare keyword
`off` is in the keyword set; any page whose normalized visible text
contains `off` as a substring — including inside a longer word — is
reported as a match; in particular pages containing only `offer`,
`office` or `coffee` all match. -/
theorem substring_match_no_word_boundaries :
    "off" ∈ keywords ∧
    (∀ doc : HForest, isSubstr "off".toList (pageText doc) = true →
      "off" ∈ found_keywords doc ∧ check_discount (.ok doc) = true) ∧
    ("off" ∈ found_keywords docOffer ∧
     "off" ∈ found_keywords docOffice ∧
     "off" ∈ found_keywords docCoffee) := by
  refine ⟨by decide, ?_, by decide, by decide, by decide⟩
  intro doc h
  have hm : "off" ∈ found_keywords doc := List.mem_filter.mpr ⟨by decide, h⟩
  refine ⟨hm, ?_⟩
  simp [check_discount]
  exact List.ne_nil_of_mem hm

/-- Witness for C10: the page whose visible text is
`Fresh coffee brewed daily` is reported as a discount match. -/
theorem substring_match_no_word_boundaries_witness :
    "off" ∈ found_keywords docCoffee ∧ check_discount (.ok docCoffee) = true :=
  substring_match_no_word_boundaries.2.1 docCoffee (by decide)
